import Mathlib

/-!
# Verification of the agenda-bot calendar module (`src/calendar.rs`)

This file is a shallow embedding of the calendar/ingestion module of the
agenda-bot repository, together with theorems settling the specification
claims about it.

Modelling conventions:
* Rust `i8` values are modelled as `Int` with the `[-128, 127]` range checks
  made explicit where the source parses them (`parseI8`).
* `DateTime<Tz>` values (Europe/Paris local instants) are modelled as minutes
  since an epoch (`Nat`); `date_naive` is division by 1440 (minutes per day).
  The upstream UTC→Paris conversion is performed by the external `chrono_tz`
  crate and is passed in as an opaque function argument where it occurs.
* External crates (`reqwest`, `icalendar`, `chrono` parsing, `chrono_tz`) are
  modelled as function/value parameters of `fetch_events`; the repository's
  own logic (cache test, property extraction, description splitting,
  classification, group expansion, day filtering) is embedded concretely.
* Rust `Regex::is_match` performs an unanchored substring search.  The two
  regex literals of the source are embedded as character-level matchers with
  exactly that substring-search semantics.
* A Rust panic (`expect`/`unwrap`/out-of-bounds index) is modelled as a
  distinguished `panicked`/`error` outcome, since a panic escapes the
  function rather than producing a value.
-/

/-- `EventType` enumeration from `calendar.rs`. -/
inductive EventType where
  | CM
  | TD
  | TP
  | OTHER
deriving DecidableEq, Repr

/-- `Department` enumeration from `calendar.rs`. -/
inductive Department where
  | INFO
  | GEII
  | RT
deriving DecidableEq, Repr

/-- `Promo` struct from `calendar.rs` (the source spells the field
`deparment`; we keep the source's name).  `year` and `group` are `i8` in the
source, modelled as `Int`. -/
structure Promo where
  year : Int
  deparment : Department
  group : Int
deriving DecidableEq, Repr

/-- `Event` struct from `calendar.rs`.  `start`/`end` are Paris-local
instants, modelled as minutes since an epoch. -/
structure Event where
  summary : String
  start : Nat
  «end» : Nat
  location : String
  lesson : String
  group : String
  teacher : Option String
  event_type : EventType
deriving DecidableEq, Repr

/-! ## Character classes used by the regex literals -/

/-- Character class `[1-4]` of the regex literals. -/
def isYearDigit (c : Char) : Bool :=
  c = '1' || c = '2' || c = '3' || c = '4'

/-- Character class `[A-Z]` of `GROUP_REGEX` (code points 65–90). -/
def isUpperAZ (c : Char) : Bool :=
  65 ≤ c.toNat && c.toNat ≤ 90

/-- Character class `[0-9]` (code points 48–57). -/
def isDigitChar (c : Char) : Bool :=
  48 ≤ c.toNat && c.toNat ≤ 57

/-! ## `GROUP_REGEX = "[1-4]-[A-Z]*-((S[1-4])|([1-4])|([1-4][1-2]))"`

`Regex::is_match` searches for the pattern anywhere in the string
(unanchored).  A match starting at a given position consists of a `[1-4]`
digit, a literal `-`, a (possibly empty) run of `[A-Z]`, a literal `-`, and
then one of the three alternatives as a prefix of the remainder.  For the
existence question the alternative `[1-4]` subsumes `[1-4][1-2]`, and
`S[1-4]` needs an `S` followed by a `[1-4]` digit. -/

/-- Does one of the alternatives `(S[1-4])|([1-4])|([1-4][1-2])` match at the
start of `l`? -/
def groupTokenStart : List Char → Bool
  | 'S' :: d :: _ => isYearDigit d
  | c :: _ => isYearDigit c
  | [] => false

/-- After the leading `[1-4]-`, consume `[A-Z]*`, then require a `-` followed
by a group-token alternative. -/
def afterYearDash : List Char → Bool
  | [] => false
  | '-' :: rest => groupTokenStart rest
  | c :: rest => isUpperAZ c && afterYearDash rest

/-- Does `GROUP_REGEX` match starting exactly at the head of `l`? -/
def matchCoreAt : List Char → Bool
  | y :: '-' :: rest => isYearDigit y && afterYearDash rest
  | _ => false

/-- Does `GROUP_REGEX` match anywhere in `l` (Rust `is_match` semantics)? -/
def groupRegexMatch : List Char → Bool
  | [] => false
  | c :: rest => matchCoreAt (c :: rest) || groupRegexMatch rest

/-- `GROUP_REGEX.is_match(name)` from `calendar.rs`. -/
def GROUP_REGEX_isMatch (s : String) : Bool :=
  groupRegexMatch s.toList

/-! ## Rust `str::split("-")` and `str::parse::<i8>()` -/

/-- Rust `name.split("-").collect::<Vec<&str>>()` on the character level:
splits at every `'-'`, keeping empty fields (so the result always has
`count of dashes + 1` fields). -/
def splitOnDash : List Char → List (List Char)
  | [] => [[]]
  | c :: rest =>
    if c = '-' then [] :: splitOnDash rest
    else
      match splitOnDash rest with
      | [] => [[c]]
      | hd :: tl => (c :: hd) :: tl

/-- Value of a non-empty all-digit run, `none` otherwise. -/
def digitsToNat (ds : List Char) : Option Nat :=
  if ds.isEmpty then none
  else if ds.all isDigitChar then
    some (ds.foldl (fun a c => a * 10 + (c.toNat - 48)) 0)
  else none

/-- Strip an optional leading `+`/`-` sign, as Rust's integer `FromStr`
does. -/
def parseSign (cs : List Char) : Bool × List Char :=
  match cs with
  | [] => (false, [])
  | c :: rest =>
    if c = '-' then (true, rest)
    else if c = '+' then (false, rest)
    else (false, cs)

/-- Rust `s.parse::<i8>()`: optional sign, at least one digit, value within
`[-128, 127]`; `none` models `Err`. -/
def parseI8 (cs : List Char) : Option Int :=
  let sd := parseSign cs
  match digitsToNat sd.2 with
  | none => none
  | some v =>
    if sd.1 then
      if v ≤ 128 then some (-(v : Int)) else none
    else
      if v ≤ 127 then some (v : Int) else none

/-- Rust `split[2].starts_with("S")` on the character level. -/
def startsWithS : List Char → Bool
  | 'S' :: _ => true
  | _ => false

/-- The `match split[1]` department table of `parse_promo_name`. -/
def departmentOf (s : List Char) : Option Department :=
  if s = "INFO".toList then some Department.INFO
  else if s = "GEII".toList then some Department.GEII
  else if s = "RT".toList then some Department.RT
  else none

/-- `parse_promo_name` from `calendar.rs`: reject unless `GROUP_REGEX`
matches somewhere in `name`; then split on `-`, parse field 0 as `i8`
(year), look field 1 up in the department table, and take field 2 as the
group: `0` if it starts with `S`, otherwise its `i8` value. -/
def parse_promo_name (name : String) : Option Promo :=
  if !GROUP_REGEX_isMatch name then none
  else
    let split := splitOnDash name.toList
    match parseI8 (split.getD 0 []) with
    | none => none
    | some year =>
      match departmentOf (split.getD 1 []) with
      | none => none
      | some department =>
        let group? :=
          if startsWithS (split.getD 2 []) then some (0 : Int)
          else parseI8 (split.getD 2 [])
        match group? with
        | none => none
        | some group => some { year := year, deparment := department, group := group }

/-! ## `CLASS_TYPE_REGEX = "(S|R)[1-9].[0-9][0-9](-|_)(CM|TD|TP)"`

Again an unanchored substring search.  `.` in a Rust regex matches any
character except `'\n'`.  A match needs eight characters from its starting
position. -/

/-- Does `CLASS_TYPE_REGEX` match starting exactly at the head of `l`? -/
def classTypeAt : List Char → Bool
  | c0 :: c1 :: c2 :: c3 :: c4 :: c5 :: c6 :: c7 :: _ =>
    (c0 = 'S' || c0 = 'R') && (49 ≤ c1.toNat && c1.toNat ≤ 57) && (c2 ≠ '\n')
      && isDigitChar c3 && isDigitChar c4 && (c5 = '-' || c5 = '_')
      && ((c6 = 'C' && c7 = 'M') || (c6 = 'T' && c7 = 'D') || (c6 = 'T' && c7 = 'P'))
  | _ => false

/-- Does `CLASS_TYPE_REGEX` match anywhere in `l` (Rust `is_match`)? -/
def classTypeSearch : List Char → Bool
  | [] => false
  | c :: rest => classTypeAt (c :: rest) || classTypeSearch rest

/-! ## UTF-8 byte slicing for `&summary[6..8]`

Rust slices `&str` by BYTE offsets and panics when an offset is not a
character boundary (or out of bounds).  We model the byte structure through
the UTF-8 length of each character. -/

/-- Number of UTF-8 bytes encoding `c`. -/
def utf8Len (c : Char) : Nat :=
  if c.toNat < 0x80 then 1
  else if c.toNat < 0x800 then 2
  else if c.toNat < 0x10000 then 3
  else 4

/-- Drop exactly `n` bytes from the front; `none` when `n` is not a
character boundary or exceeds the string. -/
def dropBytes : List Char → Nat → Option (List Char)
  | cs, 0 => some cs
  | [], _ + 1 => none
  | c :: cs, n + 1 =>
    if utf8Len c ≤ n + 1 then dropBytes cs (n + 1 - utf8Len c) else none

/-- Take exactly `n` bytes from the front; `none` when `n` is not a
character boundary or exceeds the string. -/
def takeBytes : List Char → Nat → Option (List Char)
  | _, 0 => some []
  | [], _ + 1 => none
  | c :: cs, n + 1 =>
    if utf8Len c ≤ n + 1 then
      match takeBytes cs (n + 1 - utf8Len c) with
      | none => none
      | some l => some (c :: l)
    else none

/-- Rust `&s[a..b]`: `none` models the boundary/out-of-range panic. -/
def sliceBytes (cs : List Char) (a b : Nat) : Option (List Char) :=
  match dropBytes cs a with
  | none => none
  | some rest => takeBytes rest (b - a)

/-- Decode the two-character slice the way the `match event_type` arm of
`fetch_events` does. -/
def decodeTypeCode (code : List Char) : EventType :=
  if code = "TD".toList then EventType.TD
  else if code = "TP".toList then EventType.TP
  else if code = "CM".toList then EventType.CM
  else EventType.OTHER

/-- The `event_type` computation of `fetch_events`: if `CLASS_TYPE_REGEX`
matches anywhere in the summary, decode bytes `6..8` of the whole summary
(`none` models the slicing panic); otherwise `OTHER`. -/
def classify (summary : String) : Option EventType :=
  if classTypeSearch summary.toList then
    match sliceBytes summary.toList 6 8 with
    | none => none
    | some code => some (decodeTypeCode code)
  else
    some EventType.OTHER

example : classify "S1.01-TD blah" = some EventType.TD := by decide
example : classify "hello" = some EventType.OTHER := by decide
example : classify "S1x23-CM" = some EventType.CM := by decide
example : classify "xS1.23-CM" = some EventType.OTHER := by decide

example : parse_promo_name "3-INFO-21" = some ⟨3, Department.INFO, 21⟩ := by decide
example : parse_promo_name "2-GEII-S1" = some ⟨2, Department.GEII, 0⟩ := by decide
example : parse_promo_name "1-RT-1" = some ⟨1, Department.RT, 1⟩ := by decide
example : parse_promo_name "X-Y" = none := by decide
example : parse_promo_name "1-INFO-112" = some ⟨1, Department.INFO, 112⟩ := by decide
example : parse_promo_name "11-INFO-21" = some ⟨11, Department.INFO, 21⟩ := by decide
example : parse_promo_name "1-ABC-21" = none := by decide

/-! ## The day-index map and `set_events`

The Rust code keeps a `HashMap<Promo, Vec<Event>>`; we model it as a
function `Promo → Option (List Event)` (`none` = key absent), with
`HashMap::insert` as pointwise update.  The event lists are sorted by
`sort_by(|a, b| a.start.partial_cmp(&b.start).unwrap())`, a stable sort by
`start`, modelled by `List.mergeSort` with `startLE`. -/

/-- A day-index map: `none` means the `Promo` key is absent. -/
def PromoMap : Type := Promo → Option (List Event)

/-- The empty `HashMap`. -/
def emptyPromoMap : PromoMap := fun _ => none

/-- `HashMap::insert`. -/
def mapInsert (m : PromoMap) (p : Promo) (v : List Event) : PromoMap :=
  fun q => if q = p then some v else m q

/-- The comparator `a.start.partial_cmp(&b.start)` (total on `DateTime`):
the non-strict order on `start`. -/
def eventLE (a b : Event) : Prop :=
  a.start ≤ b.start

instance : DecidableRel eventLE := fun a b =>
  inferInstanceAs (Decidable (a.start ≤ b.start))

instance : IsTotal Event eventLE :=
  ⟨fun a b => Nat.le_total a.start b.start⟩

instance : IsTrans Event eventLE :=
  ⟨fun _ _ _ h h' => Nat.le_trans h h'⟩

/-- The insertion pattern repeated verbatim at every insertion site of
`set_events`: read the bucket (empty if absent), clone, push the event,
stable-sort by `start`, and write the bucket back.

Rust's `Vec::sort_by` is a stable sort; the output of a stable sort is
uniquely determined by the input list and the comparator, so any stable
sorting algorithm is extensionally the same function.  We use
`List.insertionSort`, which is stable (`List.sublist_insertionSort`) and
defined by structural recursion (so the model stays kernel-executable). -/
def pushSort (m : PromoMap) (p : Promo) (e : Event) : PromoMap :=
  let group_events := (m p).getD []
  let group_events := group_events ++ [e]
  mapInsert m p (List.insertionSort eventLE group_events)

/-- `set_events` from `calendar.rs`.  The second component of the result is
the list of `println!` diagnostics the call emits (one when
`parse_promo_name` fails, nothing otherwise).

* session-group token (`starts_with("S")`): for `i` in `1..5`, for `j` in
  `1..3` insert under group `format!("{}{}", i, j).parse::<i8>().unwrap()`,
  then under group `i`; finally insert under the parsed promo itself.
  (The `unwrap` cannot panic: `"11"`…`"42"` always parse; the model's
  `getD 0` default is unreachable.)
* two-character token: a single insertion under the parsed promo;
* one-character token: insert under `format!("{}{}", token, i)` for `i` in
  `1..3`, then under the parsed promo;
* anything else (length 0 or ≥ 3): fall through all branches — no
  insertion and no diagnostic. -/
def set_events (name : String) (event : Event) (current_list : PromoMap) :
    PromoMap × List String :=
  let split := splitOnDash name.toList
  match parse_promo_name name with
  | none => (current_list, [s!"Failed to parse promo name: {name}"])
  | some promo =>
    let group_name := split.getD 2 []
    if startsWithS group_name then
      let m := (List.range' 1 4).foldl
        (fun (m : PromoMap) (i : Nat) =>
          let m := (List.range' 1 2).foldl
            (fun (m : PromoMap) (j : Nat) =>
              let new_group_name := (toString i).toList ++ (toString j).toList
              pushSort m { promo with group := (parseI8 new_group_name).getD 0 } event)
            m
          pushSort m { promo with group := (i : Int) } event)
        current_list
      (pushSort m promo event, [])
    else if group_name.length = 2 then
      (pushSort current_list promo event, [])
    else if group_name.length = 1 then
      let m := (List.range' 1 2).foldl
        (fun (m : PromoMap) (i : Nat) =>
          let new_group_name := group_name ++ (toString i).toList
          pushSort m { promo with group := (parseI8 new_group_name).getD 0 } event)
        current_list
      (pushSort m promo event, [])
    else
      (current_list, [])

/-! ## Fetching, parsing and the day filter -/

/-- One `icalendar` property (`name`/`val`). -/
structure CalProp where
  name : String
  val : String

/-- One `icalendar` calendar component. -/
structure Component where
  properties : List CalProp

/-- Result of a call to `fetch_events`: either a value, a returned `Err`, or
an escaped panic. -/
inductive FetchOutcome where
  | ok (events : List Event)
  | err (msg : String)
  | panicked (msg : String)

/-- What one call to `fetch_events` did: its outcome, and whether it
performed the network GET. -/
structure FetchResult where
  outcome : FetchOutcome
  networkPerformed : Bool

/-- The `CALENDAR_CACHE` static of `calendar.rs`.  It is a plain
(immutable) `static`, so it is the constant `(0, Vec::new())` for the whole
life of the process: no code ever writes to it. -/
def CALENDAR_CACHE : Int × List Event := (0, [])

/-- Component extraction from the body of `fetch_events`: find `SUMMARY`,
`DTSTART`, `DTEND`, `LOCATION`, `DESCRIPTION` (each `expect` panics when
missing, with the source's messages, in source order), parse both
timestamps with the external `chrono` parser (`unwrap` at the `Event`
literal), split the description on literal `\n\n` and its second section on
literal `\n` (`split[1]` panics by index when there is no second section),
and classify the summary.  `parse_from_str` is `chrono`'s
`NaiveDateTime::parse_from_str(_, ISO_8601)`, `from_utc` is `chrono_tz`'s
`Paris.from_utc_datetime`; both are external crates, passed as
parameters. -/
def buildEvent (parse_from_str : String → Option Nat) (from_utc : Nat → Nat)
    (c : Component) : Except String Event :=
  match c.properties.find? (fun p => p.name = "SUMMARY") with
  | none => Except.error "Failed to find summary"
  | some summary =>
  match c.properties.find? (fun p => p.name = "DTSTART") with
  | none => Except.error "Failed to find start"
  | some start_datetime =>
  match c.properties.find? (fun p => p.name = "DTEND") with
  | none => Except.error "Failed to find end"
  | some end_datetime =>
  match c.properties.find? (fun p => p.name = "LOCATION") with
  | none => Except.error "Failed to find location"
  | some location =>
  match c.properties.find? (fun p => p.name = "DESCRIPTION") with
  | none => Except.error "Failed to find description"
  | some description =>
  let start := parse_from_str start_datetime.val
  let endv := parse_from_str end_datetime.val
  let split := description.val.splitOn "\\n\\n"
  if 1 < split.length then
    let split2 := (split.getD 1 "").splitOn "\\n"
    match start with
    | none => Except.error "panicked unwrapping start"
    | some s =>
    match endv with
    | none => Except.error "panicked unwrapping end"
    | some e =>
    match classify summary.val with
    | none => Except.error "panicked slicing summary"
    | some et =>
      Except.ok
        { summary := summary.val
          start := from_utc s
          «end» := from_utc e
          location := location.val
          lesson := split.getD 0 ""
          group := split2.getD 0 ""
          teacher := if 1 < split2.length then some (split2.getD 1 "") else none
          event_type := et }
  else
    Except.error "panicked indexing description split"

/-- Process all components as the `for_each` loop does; the first panic
aborts the whole call. -/
def buildEvents (parse_from_str : String → Option Nat) (from_utc : Nat → Nat) :
    List Component → Except String (List Event)
  | [] => Except.ok []
  | c :: cs =>
    match buildEvent parse_from_str from_utc c with
    | Except.error msg => Except.error msg
    | Except.ok e =>
      match buildEvents parse_from_str from_utc cs with
      | Except.error msg => Except.error msg
      | Except.ok es => Except.ok (e :: es)

/-- `fetch_events` from `calendar.rs`.

* `now` is `Utc::now().timestamp_millis()`.
* `httpGet` is the combined result of `reqwest::get(...)` and `.text()`
  (external crate); `Except.error` makes the source's `expect` panic.
* `read_calendar` is `icalendar::parser::read_calendar ∘ unfold` (external
  crate).

The cache test compares `now` with `CALENDAR_CACHE.0`, which is the
immutable constant `0`; on a miss the events are rebuilt from the network
and the cache is NOT updated (there is no code writing the static). -/
def fetch_events (now : Int) (httpGet : Except String String)
    (read_calendar : String → Except String (List Component))
    (parse_from_str : String → Option Nat) (from_utc : Nat → Nat) : FetchResult :=
  if now - CALENDAR_CACHE.1 < 1000 * 60 * 10 then
    { outcome := FetchOutcome.ok CALENDAR_CACHE.2, networkPerformed := false }
  else
    match httpGet with
    | Except.error _ =>
      { outcome := FetchOutcome.panicked "Failed to fetch calendar!", networkPerformed := true }
    | Except.ok body =>
      match read_calendar body with
      | Except.error _ =>
        { outcome := FetchOutcome.err "Failed to parse calendar!", networkPerformed := true }
      | Except.ok components =>
        match buildEvents parse_from_str from_utc components with
        | Except.error msg =>
          { outcome := FetchOutcome.panicked msg, networkPerformed := true }
        | Except.ok events =>
          { outcome := FetchOutcome.ok events, networkPerformed := true }

/-- `DateTime::date_naive()` on a Paris-local instant in minutes: the civil
day number. -/
def date_naive (t : Nat) : Nat := t / 1440

/-- The filter closure of `get_sorted_events`:
`e.start.date_naive() >= day && e.end.date_naive() < day + Duration::days(1)`. -/
def dayFilter (day : Nat) (e : Event) : Bool :=
  decide (day ≤ date_naive e.start) && decide (date_naive e.«end» < day + 1)

/-- The accumulation loop of `get_sorted_events`: fold `set_events` over the
day-filtered events, starting from a fresh map. -/
def buildMap (day : Nat) (events : List Event) : PromoMap :=
  (events.filter (dayFilter day)).foldl
    (fun m e => (set_events e.group e m).1) emptyPromoMap

/-- Result of `get_sorted_events`: `Ok` map, returned `Err`, or escaped
panic. -/
inductive BuildOutcome where
  | ok (m : PromoMap)
  | err (msg : String)
  | panicked (msg : String)

/-- A concrete event for sanity checks. -/
def evA : Event :=
  { summary := "S1.01-TD Maths", start := 600, «end» := 660, location := "B12"
    lesson := "Maths", group := "1-INFO-21", teacher := some "X", event_type := EventType.TD }

example : (set_events "2-GEII-S1" evA emptyPromoMap).1 ⟨2, Department.GEII, 11⟩ = some [evA] := by
  decide
example : (set_events "2-GEII-S1" evA emptyPromoMap).1 ⟨2, Department.GEII, 0⟩ = some [evA] := by
  decide
example : (set_events "2-GEII-S1" evA emptyPromoMap).1 ⟨2, Department.GEII, 13⟩ = none := by
  decide
example : (set_events "1-INFO-112" evA emptyPromoMap).1 ⟨1, Department.INFO, 112⟩ = none := by
  decide
example : (set_events "1-INFO-112" evA emptyPromoMap).2 = [] := by decide
example : (set_events "1-INFO-2" evA emptyPromoMap).1 ⟨1, Department.INFO, 22⟩ = some [evA] := by
  decide
example : (set_events "X-Y" evA emptyPromoMap).2 = ["Failed to parse promo name: X-Y"] := by
  decide

/-- `get_sorted_events` from `calendar.rs`: take the `fetch_events` result;
on `Ok(events)`, filter to the target day and fold `set_events` over the
survivors; on `Err` return the error unchanged; a panic in `fetch_events`
escapes this function too. -/
def get_sorted_events (day : Nat) (fetched : FetchResult) : BuildOutcome :=
  match fetched.outcome with
  | FetchOutcome.ok events => BuildOutcome.ok (buildMap day events)
  | FetchOutcome.err e => BuildOutcome.err e
  | FetchOutcome.panicked msg => BuildOutcome.panicked msg

/-! ## Lemmas about the insertion pattern -/

theorem pushSort_apply (m : PromoMap) (p : Promo) (e : Event) (q : Promo) :
    pushSort m p e q =
      if q = p then some (List.insertionSort eventLE ((m p).getD [] ++ [e])) else m q :=
  rfl

/-- Insert the same event under every key of `ks`, left to right (the shape
of the insertion loops of `set_events`). -/
def pushAll (m : PromoMap) (ks : List Promo) (e : Event) : PromoMap :=
  ks.foldl (fun m k => pushSort m k e) m

/-- When the keys are pairwise distinct, inserting under each of them reads
every bucket from the original map: each listed key gets the event appended
and re-sorted once, every other key is untouched. -/
theorem pushAll_apply (e : Event) :
    ∀ (ks : List Promo) (m : PromoMap) (q : Promo), ks.Nodup →
      pushAll m ks e q =
        if q ∈ ks then some (List.insertionSort eventLE ((m q).getD [] ++ [e])) else m q := by
  intro ks
  induction ks with
  | nil =>
    intro m q _
    simp [pushAll]
  | cons k ks ih =>
    intro m q hnd
    rw [List.nodup_cons] at hnd
    show pushAll (pushSort m k e) ks e q = _
    rw [ih _ q hnd.2, pushSort_apply]
    by_cases hqk : q = k
    · subst hqk
      simp [hnd.1]
    · by_cases hq : q ∈ ks <;> simp [hqk, hq]

/-- Stability of the sort, phrased on equal-`start` classes: sorting does
not reorder the events that share any given `start` value. -/
theorem insertionSort_filter_start (t : Nat) (l : List Event) :
    (List.insertionSort eventLE l).filter (fun x => x.start == t) =
      l.filter (fun x => x.start == t) := by
  set pt : Event → Bool := fun x => x.start == t with hpt
  have hmem : ∀ a ∈ l.filter pt, a.start = t := by
    intro a ha
    have := (List.mem_filter.mp ha).2
    simpa [hpt] using this
  have hpw : (l.filter pt).Pairwise eventLE := by
    rw [List.pairwise_iff_forall_sublist]
    intro a b hab
    have ha : a ∈ l.filter pt := hab.subset (by simp)
    have hb : b ∈ l.filter pt := hab.subset (by simp)
    show a.start ≤ b.start
    rw [hmem a ha, hmem b hb]
  have h1 : List.Sublist (l.filter pt) (List.insertionSort eventLE l) :=
    List.sublist_insertionSort hpw (List.filter_sublist l)
  have h2 : List.Sublist (l.filter pt) ((List.insertionSort eventLE l).filter pt) := by
    have := h1.filter pt
    rwa [List.filter_filter, show (fun a => (pt a && pt a : Bool)) = pt from by
      funext a; cases pt a <;> simp] at this
  have h3 : List.Perm ((List.insertionSort eventLE l).filter pt) (l.filter pt) :=
    (List.perm_insertionSort eventLE l).filter pt
  exact (h2.eq_of_length h3.length_eq.symm).symm

/-! ## Lemmas about `parseI8` and `parse_promo_name` -/

theorem isDigitChar_ne_dash {c : Char} (h : isDigitChar c = true) : c ≠ '-' := by
  intro he
  rw [he] at h
  exact absurd h (by decide)

theorem isDigitChar_ne_plus {c : Char} (h : isDigitChar c = true) : c ≠ '+' := by
  intro he
  rw [he] at h
  exact absurd h (by decide)

theorem isDigitChar_bounds {c : Char} (h : isDigitChar c = true) :
    48 ≤ c.toNat ∧ c.toNat ≤ 57 := by
  simpa [isDigitChar] using h

/-- A one-character string parses as `i8` exactly when the character is a
digit, and then denotes its digit value. -/
theorem parseI8_single {c : Char} {v : Int} (h : parseI8 [c] = some v) :
    isDigitChar c = true ∧ v = ((c.toNat - 48 : Nat) : Int) := by
  by_cases hm : c = '-'
  · subst hm; simp [parseI8, parseSign, digitsToNat] at h
  · by_cases hq : c = '+'
    · subst hq; simp [parseI8, parseSign, digitsToNat] at h
    · by_cases hd : isDigitChar c
      · refine ⟨hd, ?_⟩
        have hb : c.toNat - 48 ≤ 127 := by
          have := isDigitChar_bounds hd
          omega
        simp [parseI8, parseSign, hm, hq, digitsToNat, hd, hb] at h
        omega
      · simp [parseI8, parseSign, hm, hq, digitsToNat, hd] at h

/-- A two-digit string parses as `i8` to its two-digit value. -/
theorem parseI8_pair {c d : Char} (hc : isDigitChar c = true) (hd : isDigitChar d = true) :
    parseI8 [c, d] = some (((c.toNat - 48) * 10 + (d.toNat - 48) : Nat) : Int) := by
  have h1 : c ≠ '-' := isDigitChar_ne_dash hc
  have h2 : c ≠ '+' := isDigitChar_ne_plus hc
  have hcb := isDigitChar_bounds hc
  have hdb := isDigitChar_bounds hd
  have hb : (c.toNat - 48) * 10 + (d.toNat - 48) ≤ 127 := by omega
  simp [parseI8, parseSign, h1, h2, digitsToNat, hc, hd, hb]

/-- Unpacking a successful `parse_promo_name`: the regex matched somewhere,
the year and department fields parsed, and the group is `0` for an
`S`-token and the token's `i8` value otherwise. -/
theorem parse_promo_name_eq_some {name : String} {p : Promo}
    (hp : parse_promo_name name = some p) :
    GROUP_REGEX_isMatch name = true ∧
    parseI8 ((splitOnDash name.toList).getD 0 []) = some p.year ∧
    departmentOf ((splitOnDash name.toList).getD 1 []) = some p.deparment ∧
    ((startsWithS ((splitOnDash name.toList).getD 2 []) = true ∧ p.group = 0) ∨
      (startsWithS ((splitOnDash name.toList).getD 2 []) = false ∧
        parseI8 ((splitOnDash name.toList).getD 2 []) = some p.group)) := by
  unfold parse_promo_name at hp
  by_cases hm : GROUP_REGEX_isMatch name
  · simp only [hm, Bool.not_true, Bool.false_eq_true, if_false] at hp
    refine ⟨hm, ?_⟩
    cases hy : parseI8 ((splitOnDash name.toList).getD 0 []) with
    | none => rw [hy] at hp; exact absurd hp (by simp)
    | some y =>
      rw [hy] at hp
      cases hdep : departmentOf ((splitOnDash name.toList).getD 1 []) with
      | none => rw [hdep] at hp; exact absurd hp (by simp)
      | some dep =>
        rw [hdep] at hp
        by_cases hS : startsWithS ((splitOnDash name.toList).getD 2 [])
        · simp only [hS, if_true] at hp
          cases hp
          exact ⟨rfl, rfl, Or.inl ⟨hS, rfl⟩⟩
        · simp only [hS, Bool.false_eq_true, if_false] at hp
          cases hg : parseI8 ((splitOnDash name.toList).getD 2 []) with
          | none => rw [hg] at hp; exact absurd hp (by simp)
          | some g =>
            rw [hg] at hp
            cases hp
            exact ⟨rfl, rfl, Or.inr ⟨by simpa using hS, rfl⟩⟩
  · simp [hm] at hp

/-- Acceptance characterization of `parse_promo_name` (both directions). -/
theorem parse_promo_name_isSome_iff (name : String) :
    (parse_promo_name name).isSome = true ↔
      GROUP_REGEX_isMatch name = true ∧
      (parseI8 ((splitOnDash name.toList).getD 0 [])).isSome = true ∧
      (departmentOf ((splitOnDash name.toList).getD 1 [])).isSome = true ∧
      (startsWithS ((splitOnDash name.toList).getD 2 []) = true ∨
        (parseI8 ((splitOnDash name.toList).getD 2 [])).isSome = true) := by
  constructor
  · intro h
    obtain ⟨p, hp⟩ := Option.isSome_iff_exists.mp h
    obtain ⟨h1, h2, h3, h4⟩ := parse_promo_name_eq_some hp
    refine ⟨h1, by rw [h2]; rfl, by rw [h3]; rfl, ?_⟩
    rcases h4 with ⟨hS, _⟩ | ⟨_, hg⟩
    · exact Or.inl hS
    · exact Or.inr (by rw [hg]; rfl)
  · rintro ⟨h1, h2, h3, h4⟩
    obtain ⟨y, hy⟩ := Option.isSome_iff_exists.mp h2
    obtain ⟨dep, hdep⟩ := Option.isSome_iff_exists.mp h3
    unfold parse_promo_name
    rw [h1]
    simp only [Bool.not_true, Bool.false_eq_true, if_false]
    rw [hy, hdep]
    by_cases hS : startsWithS ((splitOnDash name.toList).getD 2 [])
    · rw [if_pos hS]
      simp
    · have hSf : startsWithS ((splitOnDash name.toList).getD 2 []) = false :=
        Bool.not_eq_true _ ▸ Bool.of_not_eq_true hS
      rcases h4 with hS' | hg
      · exact absurd hS' hS
      · obtain ⟨g, hg'⟩ := Option.isSome_iff_exists.mp hg
        rw [if_neg hS, hg']
        simp

/-! ## A `GROUP_REGEX` match guarantees at least three dash-fields -/

theorem splitOnDash_ne_nil : ∀ l : List Char, splitOnDash l ≠ []
  | [] => by simp [splitOnDash]
  | c :: rest => by
    by_cases hc : c = '-'
    · simp [splitOnDash, hc]
    · simp only [splitOnDash, hc, if_false]
      cases splitOnDash rest <;> simp

theorem splitOnDash_length (l : List Char) :
    (splitOnDash l).length = l.countP (fun c => decide (c = '-')) + 1 := by
  induction l with
  | nil => simp [splitOnDash]
  | cons c rest ih =>
    by_cases hc : c = '-'
    · subst hc
      simp [splitOnDash, List.countP_cons, ih]
    · obtain ⟨hd, tl, heq⟩ := List.exists_cons_of_ne_nil (splitOnDash_ne_nil rest)
      simp only [splitOnDash, hc, if_false, heq, List.length_cons, List.countP_cons]
      rw [heq] at ih
      simp only [List.length_cons] at ih
      simp [hc, ih]

theorem afterYearDash_has_dash {l : List Char} (h : afterYearDash l = true) :
    1 ≤ l.countP (fun c => decide (c = '-')) := by
  induction l with
  | nil => simp [afterYearDash] at h
  | cons c rest ih =>
    by_cases hc : c = '-'
    · subst hc
      simp [List.countP_cons]
    · rw [show afterYearDash (c :: rest) = (isUpperAZ c && afterYearDash rest) from by
        cases rest <;> simp [afterYearDash, hc]] at h
      have := ih ((Bool.and_eq_true _ _).mp h).2
      simp only [List.countP_cons]
      omega

theorem matchCoreAt_dashes {l : List Char} (h : matchCoreAt l = true) :
    2 ≤ l.countP (fun c => decide (c = '-')) := by
  match l with
  | [] => exact absurd h (by simp [matchCoreAt])
  | [y] => exact absurd h (by simp [matchCoreAt])
  | y :: c2 :: rest =>
    by_cases hc : c2 = '-'
    · subst hc
      have hy : isYearDigit y = true ∧ afterYearDash rest = true := by
        simpa [matchCoreAt] using h
      have h1 := afterYearDash_has_dash hy.2
      have hyne : y ≠ '-' := by
        intro he
        rw [he] at hy
        exact absurd hy.1 (by decide)
      have h2 : List.countP (fun c => decide (c = '-')) (y :: '-' :: rest) =
          List.countP (fun c => decide (c = '-')) rest + 1 := by
        simp [List.countP_cons, hyne]
      omega
    · exact absurd h (by simp [matchCoreAt, hc])

theorem groupRegexMatch_dashes {l : List Char} (h : groupRegexMatch l = true) :
    2 ≤ l.countP (fun c => decide (c = '-')) := by
  induction l with
  | nil => simp [groupRegexMatch] at h
  | cons c rest ih =>
    rw [show groupRegexMatch (c :: rest) =
        (matchCoreAt (c :: rest) || groupRegexMatch rest) from rfl] at h
    rcases Bool.or_eq_true_iff.mp h with h1 | h1
    · exact matchCoreAt_dashes h1
    · have := ih h1
      simp only [List.countP_cons]
      omega

/-- A regex match implies the name splits into at least three dash-fields,
so `split[0]`, `split[1]`, `split[2]` cannot panic in the source. -/
theorem groupRegexMatch_split_len {name : String} (h : GROUP_REGEX_isMatch name = true) :
    3 ≤ (splitOnDash name.toList).length := by
  rw [splitOnDash_length]
  have := groupRegexMatch_dashes (l := name.toList) (by simpa [GROUP_REGEX_isMatch] using h)
  omega

/-! ## Branch analysis of `set_events` -/

/-- Session-group branch: `set_events` is exactly the thirteen insertions
`11, 12, 1, 21, 22, 2, 31, 32, 3, 41, 42, 4` and the parsed promo itself,
in source order, with no diagnostic. -/
theorem set_events_S_branch (name : String) (e : Event) (m : PromoMap) (p : Promo)
    (hp : parse_promo_name name = some p)
    (hs : startsWithS ((splitOnDash name.toList).getD 2 []) = true) :
    set_events name e m =
      (pushAll m
        [⟨p.year, p.deparment, 11⟩, ⟨p.year, p.deparment, 12⟩, ⟨p.year, p.deparment, 1⟩,
          ⟨p.year, p.deparment, 21⟩, ⟨p.year, p.deparment, 22⟩, ⟨p.year, p.deparment, 2⟩,
          ⟨p.year, p.deparment, 31⟩, ⟨p.year, p.deparment, 32⟩, ⟨p.year, p.deparment, 3⟩,
          ⟨p.year, p.deparment, 41⟩, ⟨p.year, p.deparment, 42⟩, ⟨p.year, p.deparment, 4⟩,
          p] e, []) := by
  unfold set_events
  rw [hp]
  simp only [hs]
  rfl

/-- Two-character token branch: a single insertion under the parsed promo. -/
theorem set_events_two_branch (name : String) (e : Event) (m : PromoMap) (p : Promo)
    (hp : parse_promo_name name = some p)
    (hs : startsWithS ((splitOnDash name.toList).getD 2 []) = false)
    (hl : ((splitOnDash name.toList).getD 2 []).length = 2) :
    set_events name e m = (pushSort m p e, []) := by
  unfold set_events
  rw [hp]
  simp only [hs, hl]
  rfl

/-- One-character token branch: insertions under the two subdivision keys
built by string concatenation, then under the parsed promo. -/
theorem set_events_one_branch (name : String) (e : Event) (m : PromoMap) (p : Promo)
    (hp : parse_promo_name name = some p)
    (hs : startsWithS ((splitOnDash name.toList).getD 2 []) = false)
    (hl : ((splitOnDash name.toList).getD 2 []).length = 1) :
    set_events name e m =
      (pushAll m
        [{ p with group :=
            (parseI8 ((splitOnDash name.toList).getD 2 [] ++ (toString (1 : Nat)).toList)).getD 0 },
          { p with group :=
            (parseI8 ((splitOnDash name.toList).getD 2 [] ++ (toString (2 : Nat)).toList)).getD 0 },
          p] e, []) := by
  unfold set_events
  rw [hp]
  simp only [hs, hl]
  rfl

/-- Fall-through: any other token length inserts nothing and prints
nothing. -/
theorem set_events_other_branch (name : String) (e : Event) (m : PromoMap) (p : Promo)
    (hp : parse_promo_name name = some p)
    (hs : startsWithS ((splitOnDash name.toList).getD 2 []) = false)
    (hl2 : ((splitOnDash name.toList).getD 2 []).length ≠ 2)
    (hl1 : ((splitOnDash name.toList).getD 2 []).length ≠ 1) :
    set_events name e m = (m, []) := by
  unfold set_events
  rw [hp]
  simp only [hs, hl2, hl1]
  rfl

/-- Failed parse: no insertion, one diagnostic line. -/
theorem set_events_none_branch (name : String) (e : Event) (m : PromoMap)
    (hp : parse_promo_name name = none) :
    set_events name e m = (m, [s!"Failed to parse promo name: {name}"]) := by
  unfold set_events
  rw [hp]

/-- An `S`-token parse always carries group `0`. -/
theorem parse_group_zero_of_S {name : String} {p : Promo}
    (hp : parse_promo_name name = some p)
    (hs : startsWithS ((splitOnDash name.toList).getD 2 []) = true) :
    p.group = 0 := by
  rcases (parse_promo_name_eq_some hp).2.2.2 with ⟨_, h0⟩ | ⟨hsf, _⟩
  · exact h0
  · rw [hs] at hsf
    exact absurd hsf (by simp)

/-- A non-`S` token parse carries the token's `i8` value. -/
theorem parse_group_val_of_not_S {name : String} {p : Promo}
    (hp : parse_promo_name name = some p)
    (hs : startsWithS ((splitOnDash name.toList).getD 2 []) = false) :
    parseI8 ((splitOnDash name.toList).getD 2 []) = some p.group := by
  rcases (parse_promo_name_eq_some hp).2.2.2 with ⟨hst, _⟩ | ⟨_, hg⟩
  · rw [hs] at hst
    exact absurd hst (by simp)
  · exact hg

/-- Whatever the raw label, one call to `set_events` either leaves a bucket
untouched or appends the event once and re-sorts: no bucket is ever touched
twice and no other modification happens. -/
theorem set_events_cases (name : String) (e : Event) (m : PromoMap) (q : Promo) :
    (set_events name e m).1 q = m q ∨
    (set_events name e m).1 q =
      some (List.insertionSort eventLE ((m q).getD [] ++ [e])) := by
  cases hp : parse_promo_name name with
  | none =>
    left
    rw [set_events_none_branch name e m hp]
  | some p =>
    by_cases hs : startsWithS ((splitOnDash name.toList).getD 2 [])
    · have hg0 : p.group = 0 := parse_group_zero_of_S hp hs
      obtain ⟨Y, D, g⟩ := p
      simp only at hg0
      subst hg0
      rw [set_events_S_branch name e m _ hp hs]
      simp only []
      have hnd : List.Nodup
          [(⟨Y, D, 11⟩ : Promo), ⟨Y, D, 12⟩, ⟨Y, D, 1⟩, ⟨Y, D, 21⟩, ⟨Y, D, 22⟩, ⟨Y, D, 2⟩,
            ⟨Y, D, 31⟩, ⟨Y, D, 32⟩, ⟨Y, D, 3⟩, ⟨Y, D, 41⟩, ⟨Y, D, 42⟩, ⟨Y, D, 4⟩,
            ⟨Y, D, 0⟩] := by
        simp [List.nodup_cons, List.mem_cons, Promo.mk.injEq]
      rw [pushAll_apply e _ m q hnd]
      by_cases hq : q ∈
          [(⟨Y, D, 11⟩ : Promo), ⟨Y, D, 12⟩, ⟨Y, D, 1⟩, ⟨Y, D, 21⟩, ⟨Y, D, 22⟩, ⟨Y, D, 2⟩,
            ⟨Y, D, 31⟩, ⟨Y, D, 32⟩, ⟨Y, D, 3⟩, ⟨Y, D, 41⟩, ⟨Y, D, 42⟩, ⟨Y, D, 4⟩,
            ⟨Y, D, 0⟩]
      · right; rw [if_pos hq]
      · left; rw [if_neg hq]
    · have hsf : startsWithS ((splitOnDash name.toList).getD 2 []) = false := by
        simpa using hs
      by_cases hl2 : ((splitOnDash name.toList).getD 2 []).length = 2
      · rw [set_events_two_branch name e m p hp hsf hl2]
        simp only []
        by_cases hq : q = p
        · right
          subst hq
          rw [pushSort_apply, if_pos rfl]
        · left
          rw [pushSort_apply, if_neg hq]
      · by_cases hl1 : ((splitOnDash name.toList).getD 2 []).length = 1
        · have hg := parse_group_val_of_not_S hp hsf
          obtain ⟨c, hc⟩ := List.length_eq_one.mp hl1
          rw [hc] at hg
          obtain ⟨hcd, hgv⟩ := parseI8_single hg
          have hcb := isDigitChar_bounds hcd
          rw [set_events_one_branch name e m p hp hsf hl1]
          simp only []
          have h1v : parseI8 ((splitOnDash name.toList).getD 2 [] ++ (toString (1 : Nat)).toList)
              = some (((c.toNat - 48) * 10 + 1 : Nat) : Int) := by
            rw [hc]
            show parseI8 [c, '1'] = _
            rw [parseI8_pair hcd (by decide)]
            have h49 : '1'.toNat = 49 := rfl
            rw [h49]
          have h2v : parseI8 ((splitOnDash name.toList).getD 2 [] ++ (toString (2 : Nat)).toList)
              = some (((c.toNat - 48) * 10 + 2 : Nat) : Int) := by
            rw [hc]
            show parseI8 [c, '2'] = _
            rw [parseI8_pair hcd (by decide)]
            have h50 : '2'.toNat = 50 := rfl
            rw [h50]
          have hnd : List.Nodup
              [{ p with group :=
                  (parseI8 ((splitOnDash name.toList).getD 2 []
                    ++ (toString (1 : Nat)).toList)).getD 0 },
                { p with group :=
                  (parseI8 ((splitOnDash name.toList).getD 2 []
                    ++ (toString (2 : Nat)).toList)).getD 0 },
                p] := by
            rw [h1v, h2v]
            obtain ⟨Y, D, g⟩ := p
            simp only at hgv
            subst hgv
            simp only [Option.getD_some]
            refine List.nodup_cons.mpr ⟨?_, List.nodup_cons.mpr ⟨?_, List.nodup_singleton _⟩⟩
            · intro hmem
              rcases List.mem_cons.mp hmem with h | h
              · have hh := congrArg Promo.group h
                simp only at hh
                omega
              · rw [List.mem_singleton] at h
                have hh := congrArg Promo.group h
                simp only at hh
                omega
            · intro hmem
              rw [List.mem_singleton] at hmem
              have hh := congrArg Promo.group hmem
              simp only at hh
              omega
          rw [pushAll_apply e _ m q hnd]
          by_cases hq : q ∈
              [{ p with group :=
                  (parseI8 ((splitOnDash name.toList).getD 2 []
                    ++ (toString (1 : Nat)).toList)).getD 0 },
                { p with group :=
                  (parseI8 ((splitOnDash name.toList).getD 2 []
                    ++ (toString (2 : Nat)).toList)).getD 0 },
                p]
          · right; rw [if_pos hq]
          · left; rw [if_neg hq]
        · left
          rw [set_events_other_branch name e m p hp hsf hl2 hl1]

/-! ## The day-index invariant -/

/-- Invariant relating a map under construction to the feed-ordered list of
events already processed: every present bucket is non-empty, sorted by
`start`, and its equal-`start` classes appear in processed (feed) order. -/
def InvMap (m : PromoMap) (pr : List Event) : Prop :=
  ∀ p l, m p = some l → l ≠ [] ∧ List.Sorted eventLE l ∧
    ∀ t : Nat, List.Sublist (l.filter (fun x => x.start == t))
      (pr.filter (fun x => x.start == t))

theorem invMap_empty : InvMap emptyPromoMap [] := by
  intro p l h
  simp [emptyPromoMap] at h

theorem invMap_extend {m : PromoMap} {pr : List Event} (H : InvMap m pr) (e : Event) :
    InvMap m (pr ++ [e]) := by
  intro p l h
  obtain ⟨h1, h2, h3⟩ := H p l h
  refine ⟨h1, h2, fun t => ?_⟩
  rw [List.filter_append]
  exact (h3 t).trans (List.sublist_append_left _ _)

theorem invMap_step {m : PromoMap} {pr : List Event} (H : InvMap m pr)
    (name : String) (e : Event) :
    InvMap (set_events name e m).1 (pr ++ [e]) := by
  intro p l h
  rcases set_events_cases name e m p with hc | hc
  · rw [hc] at h
    exact invMap_extend H e p l h
  · rw [hc] at h
    have hl : l = List.insertionSort eventLE ((m p).getD [] ++ [e]) :=
      (Option.some.inj h).symm
    subst hl
    refine ⟨?_, List.sorted_insertionSort eventLE _, fun t => ?_⟩
    · intro hnil
      have hlen := congrArg List.length hnil
      rw [List.length_insertionSort, List.length_append] at hlen
      simp at hlen
    · rw [insertionSort_filter_start, List.filter_append, List.filter_append]
      cases hmp : m p with
      | none =>
        simp only [hmp, Option.getD_none, List.filter_nil, List.nil_append]
        exact List.sublist_append_right _ _
      | some lold =>
        obtain ⟨_, _, h3⟩ := H p lold hmp
        simp only [hmp, Option.getD_some]
        exact (h3 t).append (List.Sublist.refl _)

theorem buildFold_inv :
    ∀ (evs : List Event) (m : PromoMap) (pr : List Event), InvMap m pr →
      InvMap (evs.foldl (fun m e => (set_events e.group e m).1) m) (pr ++ evs)
  | [], m, pr, H => by simpa using H
  | e :: evs, m, pr, H => by
    have step := invMap_step H e.group e
    have ih := buildFold_inv evs ((set_events e.group e m).1) (pr ++ [e]) step
    rw [List.append_assoc, List.singleton_append] at ih
    exact ih

/-- The built day index satisfies the invariant against the day-filtered
feed. -/
theorem buildMap_inv (day : Nat) (events : List Event) :
    InvMap (buildMap day events) (events.filter (dayFilter day)) := by
  have h := buildFold_inv (events.filter (dayFilter day)) emptyPromoMap [] invMap_empty
  simpa [buildMap] using h

/-! ## Claim theorems -/

/-- **C7.** After every day index build, every Promo key present in the
returned map holds a non-empty list sorted ascending by `start`, and for
every start time `t` the events of the bucket with that start time appear
in feed (insertion) order: they form a sublist of the day-filtered feed.
An empty result is represented by key absence (`none`), never by an empty
list. -/
theorem day_index_buckets_nonempty_sorted_stable
    (day : Nat) (events : List Event) (nb : Bool) (M : PromoMap) (p : Promo)
    (l : List Event) (t : Nat)
    (h1 : get_sorted_events day ⟨FetchOutcome.ok events, nb⟩ = BuildOutcome.ok M)
    (h2 : M p = some l) :
    l ≠ [] ∧ List.Sorted eventLE l ∧
      List.Sublist (l.filter (fun x => x.start == t))
        ((events.filter (dayFilter day)).filter (fun x => x.start == t)) := by
  have hM : buildMap day events = M := by
    have hrfl : get_sorted_events day ⟨FetchOutcome.ok events, nb⟩ =
        BuildOutcome.ok (buildMap day events) := rfl
    rw [hrfl] at h1
    injection h1
  rw [← hM] at h2
  obtain ⟨ha, hb, hcc⟩ := buildMap_inv day events p l h2
  exact ⟨ha, hb, hcc t⟩

/-- Witness for `day_index_buckets_nonempty_sorted_stable`: a single
two-digit-token event lands in its bucket, with all three conclusions at
`t = 600`. -/
theorem day_index_buckets_witness :
    (buildMap 0 [evA]) ⟨1, Department.INFO, 21⟩ = some [evA] ∧
    ([evA] ≠ [] ∧ List.Sorted eventLE [evA] ∧
      List.Sublist ([evA].filter (fun x => x.start == 600))
        (([evA].filter (dayFilter 0)).filter (fun x => x.start == 600))) := by
  refine ⟨by decide, ?_⟩
  exact day_index_buckets_nonempty_sorted_stable 0 [evA] true (buildMap 0 [evA])
    ⟨1, Department.INFO, 21⟩ [evA] 600 rfl (by decide)

/-- The event probing the upper day boundary: starts at 23:59 local on
`day`, ends at 00:30 local on `day + 1`. -/
def midnightCrossEvent (day : Nat) : Event :=
  { summary := "", start := day * 1440 + 1439, «end» := day * 1440 + 1470,
    location := "", lesson := "", group := "1-INFO-21", teacher := none,
    event_type := EventType.OTHER }

/-- The event probing the lower day boundary: starts at 23:30 local on
`day - 1`, ends at 00:10 local on `day`. -/
def prevDayRunoverEvent (day : Nat) : Event :=
  { summary := "", start := day * 1440 - 30, «end» := day * 1440 + 10,
    location := "", lesson := "", group := "1-INFO-21", teacher := none,
    event_type := EventType.OTHER }

/-- **C2 counterexample.** The 23:59→00:30 midnight-crossing event fails
the day filter for its own start day (its END has local date `day + 1`,
which is not `< day + 1`), so building day 100 over exactly this event
yields the empty index — the claim says it must be included. -/
theorem day_filter_excludes_midnight_crossing_event :
    dayFilter 100 (midnightCrossEvent 100) = false ∧
    get_sorted_events 100 ⟨FetchOutcome.ok [midnightCrossEvent 100], true⟩
      = BuildOutcome.ok emptyPromoMap :=
  ⟨by decide, rfl⟩

/-- **C2 amended.** Every event present in any bucket of the built index
passed the day filter (start's local date ≥ day AND end's local date
< day + 1); in particular both boundary-probe events are excluded: the
midnight-crossing event because its end date is `day + 1`, the previous-day
run-over event because its start date is `day - 1`. -/
theorem day_index_events_all_pass_day_filter
    (day : Nat) (events : List Event) (nb : Bool) (M : PromoMap) (q : Promo)
    (l : List Event) (x : Event)
    (h1 : get_sorted_events day ⟨FetchOutcome.ok events, nb⟩ = BuildOutcome.ok M)
    (h2 : M q = some l) (h3 : x ∈ l) :
    (x ∈ events ∧ dayFilter day x = true) ∧
      dayFilter day (midnightCrossEvent day) = false ∧
      (1 ≤ day → dayFilter day (prevDayRunoverEvent day) = false) := by
  have hdiv : ∀ d r : Nat, r < 1440 → (d * 1440 + r) / 1440 = d := by
    intro d r hr
    rw [Nat.add_comm, Nat.add_mul_div_right _ _ (by norm_num : 0 < 1440),
      Nat.div_eq_of_lt hr, Nat.zero_add]
  refine ⟨?_, ?_, ?_⟩
  · obtain ⟨_, _, hsub⟩ :=
      day_index_buckets_nonempty_sorted_stable day events nb M q l x.start h1 h2
    have hx : x ∈ l.filter (fun y => y.start == x.start) :=
      List.mem_filter.mpr ⟨h3, by simp⟩
    have hx2 := hsub.subset hx
    have hx3 := (List.mem_filter.mp hx2).1
    exact List.mem_filter.mp hx3
  · have h1d : date_naive (midnightCrossEvent day).start = day := by
      simpa [midnightCrossEvent, date_naive] using hdiv day 1439 (by norm_num)
    have h2d : date_naive (midnightCrossEvent day).«end» = day + 1 := by
      have : day * 1440 + 1470 = (day + 1) * 1440 + 30 := by ring
      simp only [midnightCrossEvent, date_naive, this]
      exact hdiv (day + 1) 30 (by norm_num)
    simp [dayFilter, h1d, h2d]
  · intro hday
    have h1d : date_naive (prevDayRunoverEvent day).start = day - 1 := by
      have : day * 1440 - 30 = (day - 1) * 1440 + 1410 := by
        cases day with
        | zero => omega
        | succ d => simp [Nat.succ_sub_one]; ring_nf; omega
      simp only [prevDayRunoverEvent, date_naive, this]
      exact hdiv (day - 1) 1410 (by norm_num)
    have : ¬ (day ≤ day - 1) := by omega
    simp [dayFilter, h1d, this]

/-- Witness for `day_index_events_all_pass_day_filter` at day 0 with the
event `evA`. -/
theorem day_index_events_all_pass_day_filter_witness :
    (evA ∈ [evA] ∧ dayFilter 0 evA = true) ∧
      dayFilter 0 (midnightCrossEvent 0) = false ∧
      (1 ≤ 0 → dayFilter 0 (prevDayRunoverEvent 0) = false) :=
  day_index_events_all_pass_day_filter 0 [evA] true (buildMap 0 [evA])
    ⟨1, Department.INFO, 21⟩ [evA] evA rfl (by decide) (by simp)

/-- **C1.** For a session-group label accepted by the parser (parsed promo
`⟨Y, D, 0⟩`, raw token starting with `S`), one `set_events` call inserts a
copy of the event into exactly the thirteen buckets of year `Y` and
department `D`: the eight full subgroups 11, 12, 21, 22, 31, 32, 41, 42,
the four half-classes 1–4, and the session-group promo with group 0 — each
bucket gets the event appended and stable-sorted — and into no other
bucket. -/
theorem session_label_fans_out_to_13_buckets
    (Y : Int) (D : Department) (name : String) (e : Event) (m : PromoMap) (q : Promo)
    (hp : parse_promo_name name = some ⟨Y, D, 0⟩)
    (hs : startsWithS ((splitOnDash name.toList).getD 2 []) = true) :
    (set_events name e m).1 q =
      if q ∈ [(⟨Y, D, 11⟩ : Promo), ⟨Y, D, 12⟩, ⟨Y, D, 1⟩, ⟨Y, D, 21⟩, ⟨Y, D, 22⟩, ⟨Y, D, 2⟩,
          ⟨Y, D, 31⟩, ⟨Y, D, 32⟩, ⟨Y, D, 3⟩, ⟨Y, D, 41⟩, ⟨Y, D, 42⟩, ⟨Y, D, 4⟩, ⟨Y, D, 0⟩]
      then some (List.insertionSort eventLE ((m q).getD [] ++ [e]))
      else m q := by
  rw [set_events_S_branch name e m _ hp hs]
  simp only []
  exact pushAll_apply e _ m q (by simp [List.nodup_cons, List.mem_cons, Promo.mk.injEq])

/-- Witness for `session_label_fans_out_to_13_buckets` at `"2-GEII-S1"`:
the full-subgroup bucket 11 receives the event, and a 14th bucket (group
13) stays untouched. -/
theorem session_label_fans_out_witness :
    parse_promo_name "2-GEII-S1" = some ⟨2, Department.GEII, 0⟩ ∧
    startsWithS ((splitOnDash "2-GEII-S1".toList).getD 2 []) = true ∧
    (set_events "2-GEII-S1" evA emptyPromoMap).1 ⟨2, Department.GEII, 11⟩ = some [evA] ∧
    (set_events "2-GEII-S1" evA emptyPromoMap).1 ⟨2, Department.GEII, 13⟩ = none := by
  refine ⟨by decide, by decide, ?_, ?_⟩
  · rw [session_label_fans_out_to_13_buckets 2 Department.GEII "2-GEII-S1" evA emptyPromoMap
      ⟨2, Department.GEII, 11⟩ (by decide) (by decide)]
    decide
  · rw [session_label_fans_out_to_13_buckets 2 Department.GEII "2-GEII-S1" evA emptyPromoMap
      ⟨2, Department.GEII, 13⟩ (by decide) (by decide)]
    decide

/-- **C10.** The label `"1-INFO-112"` is accepted by `parse_promo_name`
(the regex finds the sub-match `1-INFO-11`, and `"112"` parses as `i8`),
yet `set_events` inserts the event into no bucket at all and prints no
diagnostic: the token has length 3, so every branch falls through and the
map is returned unchanged with an empty diagnostic list. -/
theorem accepted_label_silently_dropped (e : Event) (m : PromoMap) :
    parse_promo_name "1-INFO-112" = some ⟨1, Department.INFO, 112⟩ ∧
    set_events "1-INFO-112" e m = (m, []) :=
  ⟨by decide,
    set_events_other_branch "1-INFO-112" e m ⟨1, Department.INFO, 112⟩
      (by decide) (by decide) (by decide) (by decide)⟩

/-- **C4 counterexample.** `"1-INFO-112"` has an out-of-shape (three-digit)
subgroup token, yet the parser accepts it with group 112: `is_match` only
requires the shape to appear as a substring. -/
theorem parse_promo_name_accepts_overlong_token :
    parse_promo_name "1-INFO-112" = some ⟨1, Department.INFO, 112⟩ := by decide

/-- **C4 amended.** `parse_promo_name` accepts a label iff `GROUP_REGEX`
matches SOMEWHERE in it (not necessarily covering the whole label) and the
first three dash-fields parse (year as `i8`, department known, subgroup
token `S`-prefixed or an `i8`); a regex match guarantees at least three
dash-fields, so the field accesses cannot panic and malformed labels are
rejected with `none`. -/
theorem parse_promo_name_acceptance_characterization (name : String) :
    ((parse_promo_name name).isSome = true ↔
      GROUP_REGEX_isMatch name = true ∧
      (parseI8 ((splitOnDash name.toList).getD 0 [])).isSome = true ∧
      (departmentOf ((splitOnDash name.toList).getD 1 [])).isSome = true ∧
      (startsWithS ((splitOnDash name.toList).getD 2 []) = true ∨
        (parseI8 ((splitOnDash name.toList).getD 2 [])).isSome = true)) ∧
    (GROUP_REGEX_isMatch name = true → 3 ≤ (splitOnDash name.toList).length) :=
  ⟨parse_promo_name_isSome_iff name, fun h => groupRegexMatch_split_len h⟩

/-- **C3.** `CALENDAR_CACHE` is an immutable static equal to `(0, [])`, and
nothing in the program can write it; the freshness test compares `now`
against the constant 0, so at any instant at least ten minutes past the
Unix epoch EVERY call — including a second call one minute after a
successful first fetch — performs its own network request. No call is ever
served from a cache entry written by a previous call. -/
theorem cache_never_serves_second_call :
    CALENDAR_CACHE = (0, []) ∧
    (fetch_events 1700000000000 (Except.ok "body") (fun _ => Except.ok [])
        (fun _ => none) id).networkPerformed = true ∧
    (fetch_events 1700000060000 (Except.ok "body") (fun _ => Except.ok [])
        (fun _ => none) id).networkPerformed = true :=
  ⟨rfl, rfl, rfl⟩

/-- **C5.** A failing HTTP GET does not produce a typed transport error:
`fetch_events` panics through `expect("Failed to fetch calendar!")`, and
the panic escapes `get_sorted_events` too (here at `now` ten minutes past
the epoch, i.e. any cache-miss call). -/
theorem transport_failure_panics :
    (fetch_events 600000 (Except.error "connection refused")
        (fun _ => Except.error "") (fun _ => none) id).outcome
      = FetchOutcome.panicked "Failed to fetch calendar!" ∧
    get_sorted_events 7 (fetch_events 600000 (Except.error "connection refused")
        (fun _ => Except.error "") (fun _ => none) id)
      = BuildOutcome.panicked "Failed to fetch calendar!" :=
  ⟨rfl, rfl⟩

/-- A parsed calendar component carrying every mandatory property except
`DESCRIPTION`. -/
def compMissingDescription : Component :=
  ⟨[⟨"SUMMARY", "S1.01-TD Analysis"⟩, ⟨"DTSTART", "20240115T080000Z"⟩,
    ⟨"DTEND", "20240115T100000Z"⟩, ⟨"LOCATION", "B12"⟩]⟩

/-- **C6.** A component lacking a mandatory property does not produce a
typed `ParseError` result: the `expect` in `fetch_events` panics (message
`"Failed to find description"`), aborting the whole call. -/
theorem missing_property_panics :
    (fetch_events 600000 (Except.ok "calendar body")
        (fun _ => Except.ok [compMissingDescription]) (fun _ => some 0) id).outcome
      = FetchOutcome.panicked "Failed to find description" :=
  rfl

/-! ## C8: session-type classification -/

/-- The summary pattern as the claim words it (one of `{S,R}`, a digit, a
PERIOD, two digits, `-` or `_`, then `CM`/`TD`/`TP`), at one position.
This is the claim's wording, kept separate from the source's
`CLASS_TYPE_REGEX` (whose third position is `.` = any character) so the two
can be compared. -/
def claimSummaryPatternAt : List Char → Bool
  | c0 :: c1 :: c2 :: c3 :: c4 :: c5 :: c6 :: c7 :: _ =>
    (c0 = 'S' || c0 = 'R') && isDigitChar c1 && (c2 = '.')
      && isDigitChar c3 && isDigitChar c4 && (c5 = '-' || c5 = '_')
      && ((c6 = 'C' && c7 = 'M') || (c6 = 'T' && c7 = 'D') || (c6 = 'T' && c7 = 'P'))
  | _ => false

/-- The claim's pattern matched anywhere in the summary. -/
def claimSummaryPattern : List Char → Bool
  | [] => false
  | c :: rest => claimSummaryPatternAt (c :: rest) || claimSummaryPattern rest

/-- **C8 counterexample.** `"S1x23-CM"` does NOT match the claimed pattern
(the third character is `x`, not a period), so by the claim its type must
be OTHER; but the source regex's `.` matches any character, so the code
classifies it as CM. -/
theorem class_type_without_period_classified :
    claimSummaryPattern "S1x23-CM".toList = false ∧
    classify "S1x23-CM" = some EventType.CM := by decide

/-- Dropping as many bytes as there are leading one-byte characters lands
exactly past them. -/
theorem dropBytes_ascii :
    ∀ (pre cs : List Char), (∀ c ∈ pre, utf8Len c = 1) →
      dropBytes (pre ++ cs) pre.length = some cs
  | [], cs, _ => by simp [dropBytes]
  | c :: pre, cs, h => by
    show (if utf8Len c ≤ pre.length + 1 then
        dropBytes (pre ++ cs) (pre.length + 1 - utf8Len c) else none) = some cs
    rw [h c (List.mem_cons_self c pre)]
    simp only [Nat.add_sub_cancel, if_pos (Nat.le_add_left 1 pre.length)]
    exact dropBytes_ascii pre cs fun d hd => h d (List.mem_cons_of_mem c hd)

/-- Taking as many bytes as a one-byte-character prefix occupies returns
exactly that prefix. -/
theorem takeBytes_ascii :
    ∀ (pre cs : List Char), (∀ c ∈ pre, utf8Len c = 1) →
      takeBytes (pre ++ cs) pre.length = some pre
  | [], cs, _ => by simp [takeBytes]
  | c :: pre, cs, h => by
    show (if utf8Len c ≤ pre.length + 1 then
        match takeBytes (pre ++ cs) (pre.length + 1 - utf8Len c) with
        | none => none
        | some l => some (c :: l)
      else none) = some (c :: pre)
    rw [h c (List.mem_cons_self c pre)]
    simp only [Nat.add_sub_cancel, if_pos (Nat.le_add_left 1 pre.length)]
    rw [takeBytes_ascii pre cs fun d hd => h d (List.mem_cons_of_mem c hd)]

/-- **C8 amended.** The classifier is driven by `CLASS_TYPE_REGEX` (whose
third position is ANY character except newline, not necessarily a period)
matched anywhere in the summary, and the code is then read from BYTES 6..8
of the whole summary, not of the matched region: if the regex does not
match anywhere, the type is OTHER; if it matches at position 0 (and the
free third character is one-byte, as the other seven are forced to be),
bytes 6..8 are exactly the matched code's `CM`/`TD`/`TP` and the type is
that code, never OTHER. -/
theorem event_type_classification_characterization
    (s : String) (c0 c1 c2 c3 c4 c5 c6 c7 : Char) (rest : List Char) :
    (classTypeSearch s.toList = false → classify s = some EventType.OTHER) ∧
    (s.toList = c0 :: c1 :: c2 :: c3 :: c4 :: c5 :: c6 :: c7 :: rest →
      classTypeAt s.toList = true →
      c2.toNat < 128 →
      classify s = some (decodeTypeCode [c6, c7]) ∧
        decodeTypeCode [c6, c7] ≠ EventType.OTHER) := by
  constructor
  · intro h
    unfold classify
    rw [h]
    simp
  · intro hshape hAt hascii
    rw [hshape] at hAt
    have hAt' := hAt
    simp only [classTypeAt, Bool.and_eq_true, Bool.or_eq_true, decide_eq_true_eq,
      ne_eq, decide_not, Bool.not_eq_true', decide_eq_false_iff_not] at hAt'
    obtain ⟨⟨⟨⟨⟨⟨hA, hB⟩, hC⟩, hD⟩, hE⟩, hF⟩, hG⟩ := hAt'
    have hd3 := (by simpa [isDigitChar] using hD : 48 ≤ c3.toNat ∧ c3.toNat ≤ 57)
    have hd4 := (by simpa [isDigitChar] using hE : 48 ≤ c4.toNat ∧ c4.toNat ≤ 57)
    have l0 : utf8Len c0 = 1 := by rcases hA with h | h <;> subst h <;> decide
    have l1 : utf8Len c1 = 1 := by
      unfold utf8Len
      rw [if_pos (by omega)]
    have l2 : utf8Len c2 = 1 := by
      unfold utf8Len
      rw [if_pos (by omega)]
    have l3 : utf8Len c3 = 1 := by
      unfold utf8Len
      rw [if_pos (by omega)]
    have l4 : utf8Len c4 = 1 := by
      unfold utf8Len
      rw [if_pos (by omega)]
    have l5 : utf8Len c5 = 1 := by rcases hF with h | h <;> subst h <;> decide
    have l6 : utf8Len c6 = 1 := by
      rcases hG with (⟨h, _⟩ | ⟨h, _⟩) | ⟨h, _⟩ <;> subst h <;> decide
    have l7 : utf8Len c7 = 1 := by
      rcases hG with (⟨_, h⟩ | ⟨_, h⟩) | ⟨_, h⟩ <;> subst h <;> decide
    have hdrop : dropBytes (c0 :: c1 :: c2 :: c3 :: c4 :: c5 :: c6 :: c7 :: rest) 6
        = some (c6 :: c7 :: rest) := by
      have := dropBytes_ascii [c0, c1, c2, c3, c4, c5] (c6 :: c7 :: rest) (by
        intro c hc
        simp only [List.mem_cons, List.not_mem_nil, or_false] at hc
        rcases hc with h | h | h | h | h | h <;> subst h <;> assumption)
      simpa using this
    have htake : takeBytes (c6 :: c7 :: rest) 2 = some [c6, c7] := by
      have := takeBytes_ascii [c6, c7] rest (by
        intro c hc
        simp only [List.mem_cons, List.not_mem_nil, or_false] at hc
        rcases hc with h | h <;> subst h <;> assumption)
      simpa using this
    have hslice : sliceBytes (c0 :: c1 :: c2 :: c3 :: c4 :: c5 :: c6 :: c7 :: rest) 6 8
        = some [c6, c7] := by
      unfold sliceBytes
      rw [hdrop]
      exact htake
    have hsearch : classTypeSearch (c0 :: c1 :: c2 :: c3 :: c4 :: c5 :: c6 :: c7 :: rest)
        = true := by
      show (classTypeAt (c0 :: c1 :: c2 :: c3 :: c4 :: c5 :: c6 :: c7 :: rest)
        || classTypeSearch (c1 :: c2 :: c3 :: c4 :: c5 :: c6 :: c7 :: rest)) = true
      rw [hAt]
      rfl
    constructor
    · unfold classify
      rw [hshape, hsearch]
      simp only [if_true]
      rw [hslice]
    · rcases hG with (⟨h6, h7⟩ | ⟨h6, h7⟩) | ⟨h6, h7⟩ <;> subst h6 <;> subst h7 <;> decide

/-- Witness for `event_type_classification_characterization`: both parts at
concrete summaries (`"hello"` has no match; `"S1.01-TD Analysis"` matches at
position 0 and classifies as TD). -/
theorem event_type_classification_witness :
    classify "hello" = some EventType.OTHER ∧
    (classify "S1.01-TD Analysis" = some (decodeTypeCode ['T', 'D']) ∧
      decodeTypeCode ['T', 'D'] ≠ EventType.OTHER) := by
  constructor
  · exact (event_type_classification_characterization "hello" ' ' ' ' ' ' ' ' ' ' ' ' ' ' ' '
      []).1 (by decide)
  · exact (event_type_classification_characterization "S1.01-TD Analysis" 'S' '1' '.' '0' '1'
      '-' 'T' 'D' " Analysis".toList).2 (by decide) (by decide) (by decide)

/-- Witness for `parse_promo_name_acceptance_characterization` at
`"1-INFO-21"`: the characterization accepts it, and the regex match yields
the three-field guarantee. -/
theorem parse_promo_name_acceptance_witness :
    (parse_promo_name "1-INFO-21").isSome = true ∧
      3 ≤ (splitOnDash "1-INFO-21".toList).length := by
  have h := parse_promo_name_acceptance_characterization "1-INFO-21"
  exact ⟨h.1.mpr ⟨by decide, by decide, by decide, Or.inr (by decide)⟩, h.2 (by decide)⟩
